import Mathlib

/-!
Verification of the lottery analysis engine (`get_ssq_whole.py`, with the
near-identical free-function variant in `get_ssq_seg.py`).

The engine works on a corpus of draw records stored newest-first
(index 0 = most recent draw).  Each record carries six red balls in 1..33
and one blue ball in 1..16.  The analyzers are `analyze_frequency`,
`analyze_omission`, `analyze_distribution` (zones) and `analyze_ratio`
(odd/even and high/low), and `predict_next_result` combines them.

Python dictionaries keyed by ball value are embedded as association lists
`List (Nat × Nat)` built over the full ball range in ascending key order,
which matches Python insertion order; Python's stable `sorted(...)` is
embedded as Mathlib's stable `List.insertionSort`.  Float arithmetic is
embedded as exact rational arithmetic over `ℚ`.  A Python
`ZeroDivisionError` is embedded as `none`, and `predict_next_result`'s
`ValueError` as an `Except` error value.
-/

namespace SSQ

/-- One draw record: the fields of the engine's formatted result dict that
the analyzers read (red ball list and blue ball); issue id, date and pool
amount are opaque display values never used by the engine. -/
structure Result where
  reds : List Nat
  blue : Nat
deriving DecidableEq, Repr

/-- Source constant `RED_BALL_RANGE = (1, 34)` used as `range(1, 34)`:
the red ball domain 1..33 in ascending order. -/
def RED_BALL_RANGE : List Nat := List.range' 1 33

/-- Source constant `BLUE_BALL_RANGE = (1, 17)` used as `range(1, 17)`:
the blue ball domain 1..16 in ascending order. -/
def BLUE_BALL_RANGE : List Nat := List.range' 1 16

/-- The DrawRecord invariant of the data model: exactly 6 distinct red
balls in range, one blue ball in range. -/
def ValidResult (r : Result) : Prop :=
  r.reds.length = 6 ∧ r.reds.Nodup ∧ (∀ b ∈ r.reds, b ∈ RED_BALL_RANGE) ∧
    r.blue ∈ BLUE_BALL_RANGE

instance : DecidablePred ValidResult := fun r => by
  unfold ValidResult; infer_instance

/-- Python `d.get(k, default)` on a ball-keyed dict embedded as an
association list. -/
def dictGet (l : List (Nat × Nat)) (k d : Nat) : Nat :=
  match l.find? (fun p => p.1 == k) with
  | some p => p.2
  | none => d

instance : DecidableRel (fun (a b : Nat × Nat) => b.2 ≤ a.2) :=
  fun _ _ => Nat.decLe _ _

instance : DecidableRel (fun (a b : Nat × ℚ) => b.2 ≤ a.2) :=
  fun a b => inferInstanceAs (Decidable (b.2 ≤ a.2))

/-- Python `sorted(d.items(), key=lambda x: x[1], reverse=True)`:
stable sort by value descending (ties keep dict insertion order,
i.e. ascending ball value). -/
def sortByValueDesc (l : List (Nat × Nat)) : List (Nat × Nat) :=
  l.insertionSort (fun a b => b.2 ≤ a.2)

/-- The same stable descending sort for score tables. -/
def sortByScoreDesc (l : List (Nat × ℚ)) : List (Nat × ℚ) :=
  l.insertionSort (fun a b => b.2 ≤ a.2)

/-! ### Frequency analyzer (`analyze_frequency`) -/

/-- Final value of `red_counts[ball]`: the loop starts at 0 and adds 1 for
every occurrence of `ball` in every record's red list. -/
def red_count_of (results : List Result) (ball : Nat) : Nat :=
  (results.map fun r => r.reds.count ball).sum

/-- Final value of `blue_counts[ball]`: one increment per record whose
blue ball is `ball`. -/
def blue_count_of (results : List Result) (ball : Nat) : Nat :=
  results.countP fun r => decide (r.blue = ball)

/-- `red_counts = {ball: 0 for ball in range(*RED_BALL_RANGE)}` after the
counting loop: the full-domain table in insertion (ascending key) order. -/
def red_counts_table (results : List Result) : List (Nat × Nat) :=
  RED_BALL_RANGE.map fun b => (b, red_count_of results b)

/-- `blue_counts` after the counting loop. -/
def blue_counts_table (results : List Result) : List (Nat × Nat) :=
  BLUE_BALL_RANGE.map fun b => (b, blue_count_of results b)

/-- Output of `analyze_frequency`: per pool, the count table sorted by
count descending and truncated to the `top_n` first entries. -/
structure FreqResult where
  red : List (Nat × Nat)
  blue : List (Nat × Nat)
deriving DecidableEq, Repr

/-- `LotteryAnalyzer.analyze_frequency(results, top_n)` (the call sites in
the source use the default `top_n = 10`). -/
def analyze_frequency (results : List Result) (top_n : Nat) : FreqResult :=
  { red := (sortByValueDesc (red_counts_table results)).take top_n
    blue := (sortByValueDesc (blue_counts_table results)).take top_n }

/-! ### Omission analyzer (`analyze_omission`)

The source iterates `for result in results` in storage order and per ball
sets the entry to 0 when the ball appears in the current record, else
adds 1.  Entries are independent, so the final dict entry for `ball` is a
fold of that update over the records in storage order. -/

/-- Final value of `red_omission[ball]` after the loop over `results`
(in storage order, i.e. newest first). -/
def red_omission_of (results : List Result) (ball : Nat) : Nat :=
  results.foldl (fun g r => if ball ∈ r.reds then 0 else g + 1) 0

/-- Final value of `blue_omission[ball]` after the loop. -/
def blue_omission_of (results : List Result) (ball : Nat) : Nat :=
  results.foldl (fun g r => if ball = r.blue then 0 else g + 1) 0

/-- Output of `analyze_omission`: the two full-domain omission tables. -/
structure OmissionResult where
  red : List (Nat × Nat)
  blue : List (Nat × Nat)
deriving DecidableEq, Repr

/-- `LotteryAnalyzer.analyze_omission(results)`. -/
def analyze_omission (results : List Result) : OmissionResult :=
  { red := RED_BALL_RANGE.map fun b => (b, red_omission_of results b)
    blue := BLUE_BALL_RANGE.map fun b => (b, blue_omission_of results b) }

/-- The omission walk as the spec describes it (section 4.2): walk the
draws from oldest to newest, i.e. over the reverse of the stored
newest-first list, resetting on appearance and incrementing otherwise.
Used to contrast the code's storage-order walk with the specified one. -/
def spec_red_omission_of (results : List Result) (ball : Nat) : Nat :=
  results.reverse.foldl (fun g r => if ball ∈ r.reds then 0 else g + 1) 0

/-! ### Distribution analyzer (`analyze_distribution`) -/

/-- All red ball occurrences of the corpus, in iteration order
(the nested `for result in results: for ball in result['红球']`). -/
def all_red_balls (results : List Result) : List Nat :=
  (results.map Result.reds).flatten

/-- `red_zones['1-11']`: occurrences with `1 <= ball <= 11`. -/
def rz1_count (results : List Result) : Nat :=
  (all_red_balls results).countP fun b => decide (1 ≤ b ∧ b ≤ 11)

/-- `red_zones['12-22']`: occurrences with `12 <= ball <= 22` (the elif
branch; its guard is disjoint from the first). -/
def rz2_count (results : List Result) : Nat :=
  (all_red_balls results).countP fun b => decide (12 ≤ b ∧ b ≤ 22)

/-- `red_zones['23-33']`: the else branch, everything the first two
guards rejected. -/
def rz3_count (results : List Result) : Nat :=
  (all_red_balls results).countP fun b =>
    decide (¬(1 ≤ b ∧ b ≤ 11) ∧ ¬(12 ≤ b ∧ b ≤ 22))

/-- `blue_zones['1-8']`: records whose blue ball is `<= 8`. -/
def bz1_count (results : List Result) : Nat :=
  results.countP fun r => decide (r.blue ≤ 8)

/-- `blue_zones['9-16']`: the other records. -/
def bz2_count (results : List Result) : Nat :=
  results.countP fun r => decide (¬(r.blue ≤ 8))

/-- `sum(red_zones.values())`, the red division denominator of
`analyze_distribution`. -/
def red_zone_total (results : List Result) : Nat :=
  rz1_count results + rz2_count results + rz3_count results

/-- `sum(blue_zones.values())`, the blue division denominator of
`analyze_distribution`. -/
def blue_zone_total (results : List Result) : Nat :=
  bz1_count results + bz2_count results

/-- Output of `analyze_distribution`: the zone fractions, fields in the
dict key order `1-11`, `12-22`, `23-33`, `1-8`, `9-16`. -/
structure ZoneResult where
  z1 : ℚ
  z2 : ℚ
  z3 : ℚ
  b1 : ℚ
  b2 : ℚ
deriving DecidableEq, Repr

instance : Inhabited ZoneResult := ⟨⟨0, 0, 0, 0, 0⟩⟩

/-- `LotteryAnalyzer.analyze_distribution(results)`: each zone count is
divided by its pool's total count.  A zero total makes the Python
`count / sum(...)` raise `ZeroDivisionError`, embedded as `none`. -/
def analyze_distribution (results : List Result) : Option ZoneResult :=
  if red_zone_total results = 0 ∨ blue_zone_total results = 0 then none
  else some
    { z1 := (rz1_count results : ℚ) / (red_zone_total results : ℚ)
      z2 := (rz2_count results : ℚ) / (red_zone_total results : ℚ)
      z3 := (rz3_count results : ℚ) / (red_zone_total results : ℚ)
      b1 := (bz1_count results : ℚ) / (blue_zone_total results : ℚ)
      b2 := (bz2_count results : ℚ) / (blue_zone_total results : ℚ) }

/-! ### Ratio analyzer (`analyze_ratio` in the source) -/

/-- Red `'奇数'` tally: occurrences with `ball % 2` truthy. -/
def red_odd_count (results : List Result) : Nat :=
  (all_red_balls results).countP fun b => decide (b % 2 = 1)

/-- Red `'偶数'` tally (the else branch). -/
def red_even_count (results : List Result) : Nat :=
  (all_red_balls results).countP fun b => decide (¬(b % 2 = 1))

/-- Red `'大号'` tally: occurrences with `ball >= 17`. -/
def red_big_count (results : List Result) : Nat :=
  (all_red_balls results).countP fun b => decide (17 ≤ b)

/-- Red `'小号'` tally (the else branch). -/
def red_small_count (results : List Result) : Nat :=
  (all_red_balls results).countP fun b => decide (¬(17 ≤ b))

/-- Blue `'奇数'` tally. -/
def blue_odd_count (results : List Result) : Nat :=
  results.countP fun r => decide (r.blue % 2 = 1)

/-- Blue `'偶数'` tally. -/
def blue_even_count (results : List Result) : Nat :=
  results.countP fun r => decide (¬(r.blue % 2 = 1))

/-- Blue `'大号'` tally: records with blue `>= 9`. -/
def blue_big_count (results : List Result) : Nat :=
  results.countP fun r => decide (9 ≤ r.blue)

/-- Blue `'小号'` tally. -/
def blue_small_count (results : List Result) : Nat :=
  results.countP fun r => decide (¬(9 ≤ r.blue))

/-- `sum(stats['红球'].values())`, twice the red occurrence count. -/
def red_ratio_total (results : List Result) : Nat :=
  red_odd_count results + red_even_count results +
    red_big_count results + red_small_count results

/-- `sum(stats['蓝球'].values())`, twice the record count. -/
def blue_ratio_total (results : List Result) : Nat :=
  blue_odd_count results + blue_even_count results +
    blue_big_count results + blue_small_count results

/-- Per-pool fractions in the dict key order `奇数`, `偶数`, `大号`,
`小号` (odd, even, high, low). -/
structure RatioStats where
  odd : ℚ
  even : ℚ
  big : ℚ
  small : ℚ
deriving DecidableEq, Repr

/-- Output of the source's `analyze_ratio`. -/
structure RatioResult where
  red : RatioStats
  blue : RatioStats
deriving DecidableEq, Repr

instance : Inhabited RatioStats := ⟨⟨0, 0, 0, 0⟩⟩

instance : Inhabited RatioResult := ⟨⟨default, default⟩⟩

/-- The source's `analyze_ratio(results)`: each tally is divided by
`total = sum(stats[ball_type].values()) / 2` (each occurrence was counted
once for parity and once for size).  A zero total makes the Python
`stats[key] /= total` raise `ZeroDivisionError`, embedded as `none`. -/
def analyze_ratios (results : List Result) : Option RatioResult :=
  if red_ratio_total results = 0 ∨ blue_ratio_total results = 0 then none
  else some
    { red :=
        { odd := (red_odd_count results : ℚ) / ((red_ratio_total results : ℚ) / 2)
          even := (red_even_count results : ℚ) / ((red_ratio_total results : ℚ) / 2)
          big := (red_big_count results : ℚ) / ((red_ratio_total results : ℚ) / 2)
          small := (red_small_count results : ℚ) / ((red_ratio_total results : ℚ) / 2) }
      blue :=
        { odd := (blue_odd_count results : ℚ) / ((blue_ratio_total results : ℚ) / 2)
          even := (blue_even_count results : ℚ) / ((blue_ratio_total results : ℚ) / 2)
          big := (blue_big_count results : ℚ) / ((blue_ratio_total results : ℚ) / 2)
          small := (blue_small_count results : ℚ) / ((blue_ratio_total results : ℚ) / 2) } }

/-! ### Composite predictor (`predict_next_result`) -/

/-- The typed failures of `predict_next_result`: the explicit
`ValueError` raised below 30 records (the spec's
`InsufficientDataError`), and the `ZeroDivisionError` that a degenerate
corpus would make the inner analyzers raise. -/
inductive PredictError where
  | insufficientData
  | divisionByZero
deriving DecidableEq, Repr

/-- The dict returned by `predict_next_result`. -/
structure Prediction where
  red_candidates : List Nat
  blue_candidates : List Nat
  suggested_reds : List Nat
  suggested_blue : Nat
  red_scores : List (Nat × ℚ)
  blue_scores : List (Nat × ℚ)
deriving DecidableEq, Repr

instance : Inhabited Prediction := ⟨⟨[], [], [], 0, [], []⟩⟩

/-- Candidate pool 1: `list(freq['红球'].keys())[:15]` where `freq` is
`analyze_frequency(results)` with its default `top_n = 10`. -/
def red_pool_freq (results : List Result) : List Nat :=
  ((analyze_frequency results 10).red.map Prod.fst).take 15

/-- Candidate pool 2: the keys of the first 10 entries of the red
omission table sorted by omission descending. -/
def red_pool_omission (results : List Result) : List Nat :=
  ((sortByValueDesc (analyze_omission results).red).take 10).map Prod.fst

/-- `max(zones['红球'].items(), key=lambda x: x[1])`, then the zone label
parsed into its bounds: Python's `max` keeps the first item among equal
values, scanning in dict order `1-11`, `12-22`, `23-33`. -/
def max_red_zone (z : ZoneResult) : Nat × Nat :=
  let m12 := if z.z2 > z.z1 then ((12, 22), z.z2) else ((1, 11), z.z1)
  if z.z3 > m12.2 then (23, 33) else m12.1

/-- Candidate pool 3: `[x for x in range(start, end + 1) if x in
freq['红球']]` for the most populous zone's bounds. -/
def red_pool_zone (results : List Result) (z : ZoneResult) : List Nat :=
  let se := max_red_zone z
  (List.range' se.1 (se.2 + 1 - se.1)).filter fun x =>
    decide (x ∈ (analyze_frequency results 10).red.map Prod.fst)

/-- Candidate pool 4: `[x for x in range(1, 34) if x % 2 == ...]`, all
red balls of the majority parity (`奇数` when the odd share exceeds 0.5,
else `偶数`). -/
def red_pool_parity (rt : RatioResult) : List Nat :=
  (List.range' 1 33).filter fun x =>
    x % 2 == (if rt.red.odd > 1/2 then 1 else 0)

/-- `red_candidates = sorted(list(set(...)))` over the four pools. -/
def red_candidate_list (results : List Result) (rt : RatioResult)
    (z : ZoneResult) : List Nat :=
  List.insertionSort (· ≤ ·)
    ((red_pool_freq results ++ red_pool_omission results ++
      red_pool_zone results z ++ red_pool_parity rt).dedup)

/-- Blue pool 1: `list(freq['蓝球'].keys())[:5]`. -/
def blue_pool_freq (results : List Result) : List Nat :=
  ((analyze_frequency results 10).blue.map Prod.fst).take 5

/-- Blue pool 2: keys of the first 3 entries of the blue omission table
sorted descending. -/
def blue_pool_omission (results : List Result) : List Nat :=
  ((sortByValueDesc (analyze_omission results).blue).take 3).map Prod.fst

/-- Blue pool 3: `[x for x in range(1, 17) if x % 2 == ...]`, all blue
balls of the majority parity. -/
def blue_pool_parity (rt : RatioResult) : List Nat :=
  (List.range' 1 16).filter fun x =>
    x % 2 == (if rt.blue.odd > 1/2 then 1 else 0)

/-- `blue_candidates = sorted(list(set(...)))` over the three pools. -/
def blue_candidate_list (results : List Result) (rt : RatioResult) :
    List Nat :=
  List.insertionSort (· ≤ ·)
    ((blue_pool_freq results ++ blue_pool_omission results ++
      blue_pool_parity rt).dedup)

/-- The red scoring loop body: frequency term (`.get(ball, 0) * 0.4`),
omission term (`(1 / (omission + 1)) * 0.3`), zone term
(`zone_score * 0.2`, selecting the fraction of the ball's zone), and the
parity branch that adds `0.1` when the ball's parity has a share above
`0.5`. -/
def red_score (results : List Result) (z : ZoneResult) (rt : RatioResult)
    (ball : Nat) : ℚ :=
  (dictGet (analyze_frequency results 10).red ball 0 : ℚ) * (4/10)
  + (1 / ((dictGet (analyze_omission results).red ball 0 : ℚ) + 1)) * (3/10)
  + (if 1 ≤ ball ∧ ball ≤ 11 then z.z1
     else if 12 ≤ ball ∧ ball ≤ 22 then z.z2 else z.z3) * (2/10)
  + (if (ball % 2 = 1 ∧ rt.red.odd > 1/2) ∨
        (ball % 2 = 0 ∧ rt.red.even > 1/2) then (1 : ℚ)/10 else 0)

/-- The blue scoring loop body: `.get(ball, 0) * 0.5`, the omission term
`* 0.3` and the zone term `* 0.2`; no parity term. -/
def blue_score (results : List Result) (z : ZoneResult) (ball : Nat) : ℚ :=
  (dictGet (analyze_frequency results 10).blue ball 0 : ℚ) * (5/10)
  + (1 / ((dictGet (analyze_omission results).blue ball 0 : ℚ) + 1)) * (3/10)
  + (if ball ≤ 8 then z.b1 else z.b2) * (2/10)

/-- The success branch of `predict_next_result`: candidate pools, score
tables, the 6 best-scoring red balls re-sorted ascending, and the single
best-scoring blue ball (`sorted(...)[0]`; the `(0, 0)` default of
`headD` is unreachable because the parity pool is never empty). -/
def mkPrediction (results : List Result) (rt : RatioResult)
    (z : ZoneResult) : Prediction :=
  { red_candidates := red_candidate_list results rt z
    blue_candidates := blue_candidate_list results rt
    suggested_reds :=
      List.insertionSort (· ≤ ·)
        (((sortByScoreDesc ((red_candidate_list results rt z).map
          fun b => (b, red_score results z rt b))).take 6).map Prod.fst)
    suggested_blue :=
      ((sortByScoreDesc ((blue_candidate_list results rt).map
        fun b => (b, blue_score results z b))).headD (0, 0)).1
    red_scores := (red_candidate_list results rt z).map
      fun b => (b, red_score results z rt b)
    blue_scores := (blue_candidate_list results rt).map
      fun b => (b, blue_score results z b) }

/-- `LotteryAnalyzer.predict_next_result(results)`: raises (here:
returns) `insufficientData` on `not results or len(results) < 30`,
otherwise runs the analyzers and scores the candidates.  The analyzer
calls are the source's `analyze_frequency(results)` (inside the pool and
score definitions), `analyze_omission`, `analyze_ratio` and
`analyze_distribution`; a `ZeroDivisionError` from the latter two
propagates out. -/
def predict_next_result (results : List Result) :
    Except PredictError Prediction :=
  if results = [] ∨ results.length < 30 then .error .insufficientData
  else
    match analyze_ratios results, analyze_distribution results with
    | some rt, some z => .ok (mkPrediction results rt z)
    | _, _ => .error .divisionByZero

/-! ### Extractors for stating closed facts about `Option`/`Except`
results -/

/-- The ratio analysis result, defaulting when the analyzer fails. -/
def ratiosOf (results : List Result) : RatioResult :=
  (analyze_ratios results).getD default

/-- The distribution analysis result, defaulting when the analyzer
fails. -/
def zonesOf (results : List Result) : ZoneResult :=
  (analyze_distribution results).getD default

/-- The prediction, defaulting when `predict_next_result` fails. -/
def predictionOf (results : List Result) : Prediction :=
  (predict_next_result results).toOption.getD default

/-! ### Claim-side definitions, written from the spec's words, for the
refinement-style claims C4, C5 and C7 -/

/-- Claim C4's red frequency pool as the spec words it: the top 15 red
balls by frequency (the first 15 keys of the full count table sorted by
count descending). -/
def claim_red_top15 (results : List Result) : List Nat :=
  ((sortByValueDesc (red_counts_table results)).map Prod.fst).take 15

/-- The amended red frequency pool: the top 10 red balls by frequency
(the `[:15]` slice is capped by the frequency table's default `top_n=10`
truncation). -/
def amended_red_top10 (results : List Result) : List Nat :=
  ((sortByValueDesc (red_counts_table results)).map Prod.fst).take 10

/-- Claim C4's blue frequency pool: the top 5 blue balls by frequency. -/
def claim_blue_top5 (results : List Result) : List Nat :=
  ((sortByValueDesc (blue_counts_table results)).map Prod.fst).take 5

/-- Claim C4's red candidate list: deduplicated sorted union of the
top-15-by-frequency pool, the top-10-by-omission pool, the
most-populous-zone pool and the majority-parity pool. -/
def claim_red_candidate_list (results : List Result) (rt : RatioResult)
    (z : ZoneResult) : List Nat :=
  List.insertionSort (· ≤ ·)
    ((claim_red_top15 results ++ red_pool_omission results ++
      red_pool_zone results z ++ red_pool_parity rt).dedup)

/-- The amended red candidate list: as claimed, but with the top 10 (not
top 15) balls by frequency. -/
def amended_red_candidate_list (results : List Result) (rt : RatioResult)
    (z : ZoneResult) : List Nat :=
  List.insertionSort (· ≤ ·)
    ((amended_red_top10 results ++ red_pool_omission results ++
      red_pool_zone results z ++ red_pool_parity rt).dedup)

/-- Claim C4's blue candidate list: deduplicated sorted union of the
top-5-by-frequency, top-3-by-omission and majority-parity pools. -/
def claim_blue_candidate_list (results : List Result) (rt : RatioResult) :
    List Nat :=
  List.insertionSort (· ≤ ·)
    ((claim_blue_top5 results ++ blue_pool_omission results ++
      blue_pool_parity rt).dedup)

/-- Claim C5's red score formula taken literally:
`0.4×frequencyCount + 0.3×(1/(omission+1)) + 0.2×zoneFraction +
0.1×parityBonus` with `parityBonus = 0.1` on a parity match (so the
parity summand is `0.1 × 0.1`), frequency read with default 0. -/
def claim_red_score (results : List Result) (z : ZoneResult)
    (rt : RatioResult) (ball : Nat) : ℚ :=
  (4/10) * (dictGet (analyze_frequency results 10).red ball 0 : ℚ)
  + (3/10) * (1 / ((dictGet (analyze_omission results).red ball 0 : ℚ) + 1))
  + (2/10) * (if 1 ≤ ball ∧ ball ≤ 11 then z.z1
              else if 12 ≤ ball ∧ ball ≤ 22 then z.z2 else z.z3)
  + (1/10) * (if (ball % 2 = 1 ∧ rt.red.odd > 1/2) ∨
                 (ball % 2 = 0 ∧ rt.red.even > 1/2) then (1 : ℚ)/10 else 0)

/-- The amended red score formula: as claimed but with
`parityBonus = 1` on a match, so the parity summand is `0.1`. -/
def amended_red_score (results : List Result) (z : ZoneResult)
    (rt : RatioResult) (ball : Nat) : ℚ :=
  (4/10) * (dictGet (analyze_frequency results 10).red ball 0 : ℚ)
  + (3/10) * (1 / ((dictGet (analyze_omission results).red ball 0 : ℚ) + 1))
  + (2/10) * (if 1 ≤ ball ∧ ball ≤ 11 then z.z1
              else if 12 ≤ ball ∧ ball ≤ 22 then z.z2 else z.z3)
  + (1/10) * (if (ball % 2 = 1 ∧ rt.red.odd > 1/2) ∨
                 (ball % 2 = 0 ∧ rt.red.even > 1/2) then (1 : ℚ) else 0)

/-- Claim C5's blue score formula:
`0.5×frequencyCount + 0.3×(1/(omission+1)) + 0.2×zoneFraction`, no
parity term. -/
def claim_blue_score (results : List Result) (z : ZoneResult)
    (ball : Nat) : ℚ :=
  (5/10) * (dictGet (analyze_frequency results 10).blue ball 0 : ℚ)
  + (3/10) * (1 / ((dictGet (analyze_omission results).blue ball 0 : ℚ) + 1))
  + (2/10) * (if ball ≤ 8 then z.b1 else z.b2)

/-! ### Concrete corpora used for witnesses and counterexamples -/

/-- The spec's own worked example (section 8), stored newest-first:
most recent draw `red [1,2,3,4,5,6], blue 3`, older draw
`red [1,7,8,9,10,11], blue 5`. -/
def specExample : List Result :=
  [{ reds := [1, 2, 3, 4, 5, 6], blue := 3 },
   { reds := [1, 7, 8, 9, 10, 11], blue := 5 }]

/-- A 30-record valid corpus (newest first).  Red counts: each of
2,4,6,8,10,12 appears 24 times; 14,16,18,20,22 six times; 13 four times
(only in the four oldest draws); 24 twice; nothing else appears.  So 13
is ranked 12th by frequency (inside the top 15 but outside the top 10),
has omission 0 under the code's walk, is odd while the red pool is
overwhelmingly even, and the most populous zone is 1-11. -/
def sampleCorpus : List Result :=
  ((List.range 24).map fun i => { reds := [2, 4, 6, 8, 10, 12], blue := 1 + i % 16 })
  ++ [{ reds := [14, 16, 18, 20, 22, 24], blue := 7 },
      { reds := [14, 16, 18, 20, 22, 24], blue := 8 }]
  ++ ((List.range 4).map fun i => { reds := [13, 14, 16, 18, 20, 22], blue := 9 + i })

/-! ## Basic facts about the ball domains and dict embedding -/

theorem mem_RED_BALL_RANGE {b : Nat} : b ∈ RED_BALL_RANGE ↔ 1 ≤ b ∧ b ≤ 33 := by
  simp only [RED_BALL_RANGE, List.mem_range'_1]
  omega

theorem mem_BLUE_BALL_RANGE {b : Nat} : b ∈ BLUE_BALL_RANGE ↔ 1 ≤ b ∧ b ≤ 16 := by
  simp only [BLUE_BALL_RANGE, List.mem_range'_1]
  omega

theorem RED_BALL_RANGE_nodup : RED_BALL_RANGE.Nodup := by decide

theorem BLUE_BALL_RANGE_nodup : BLUE_BALL_RANGE.Nodup := by decide

theorem dictGet_cons_eq (p : Nat × Nat) (l : List (Nat × Nat)) (k d : Nat)
    (h : p.1 = k) : dictGet (p :: l) k d = p.2 := by
  unfold dictGet
  rw [List.find?_cons_of_pos _ (by simp [h])]

theorem dictGet_cons_ne (p : Nat × Nat) (l : List (Nat × Nat)) (k d : Nat)
    (h : p.1 ≠ k) : dictGet (p :: l) k d = dictGet l k d := by
  unfold dictGet
  rw [List.find?_cons_of_neg _ (by simp [h])]

theorem dictGet_map_eq (f : Nat → Nat) (l : List Nat) (k d : Nat) (hk : k ∈ l) :
    dictGet (l.map fun b => (b, f b)) k d = f k := by
  induction l with
  | nil => cases hk
  | cons x t ih =>
    rcases eq_or_ne x k with hx | hx
    · subst hx
      simpa using dictGet_cons_eq (x, f x) (t.map fun b => (b, f b)) x d rfl
    · have hk' : k ∈ t := by
        rcases List.mem_cons.1 hk with h | h
        · exact absurd h.symm hx
        · exact h
      calc dictGet ((x :: t).map fun b => (b, f b)) k d
          = dictGet (t.map fun b => (b, f b)) k d :=
            dictGet_cons_ne (x, f x) (t.map fun b => (b, f b)) k d hx
        _ = f k := ih hk'

theorem keys_map_range {β : Type} (f : Nat → β) (l : List Nat) :
    ((l.map fun b => (b, f b)).map Prod.fst) = l := by
  induction l with
  | nil => rfl
  | cons x t ih => simp [ih]

/-! ## Counting partitions -/

theorem countP_decide_add (P : α → Prop) [DecidablePred P] (l : List α) :
    l.countP (fun a => decide (P a)) + l.countP (fun a => decide (¬P a)) = l.length := by
  induction l with
  | nil => rfl
  | cons x t ih =>
    by_cases h : P x <;>
      simp [List.countP_cons, h] at ih ⊢ <;> omega

theorem countP_zone_tri (l : List Nat) :
    l.countP (fun b => decide (1 ≤ b ∧ b ≤ 11)) +
      l.countP (fun b => decide (12 ≤ b ∧ b ≤ 22)) +
      l.countP (fun b => decide (¬(1 ≤ b ∧ b ≤ 11) ∧ ¬(12 ≤ b ∧ b ≤ 22))) =
      l.length := by
  induction l with
  | nil => rfl
  | cons x t ih =>
    rw [List.countP_cons, List.countP_cons, List.countP_cons, List.length_cons]
    by_cases h1 : 1 ≤ x ∧ x ≤ 11
    · rw [if_pos (by simp only [decide_eq_true_eq]; omega),
        if_neg (by simp only [decide_eq_true_eq]; omega),
        if_neg (by simp only [decide_eq_true_eq]; omega)]
      omega
    · by_cases h2 : 12 ≤ x ∧ x ≤ 22
      · rw [if_neg (by simp only [decide_eq_true_eq]; omega),
          if_pos (by simp only [decide_eq_true_eq]; omega),
          if_neg (by simp only [decide_eq_true_eq]; omega)]
        omega
      · rw [if_neg (by simp only [decide_eq_true_eq]; omega),
          if_neg (by simp only [decide_eq_true_eq]; omega),
          if_pos (by simp only [decide_eq_true_eq]; omega)]
        omega

/-! ## The flattened red occurrence list -/

theorem all_red_balls_cons (r : Result) (t : List Result) :
    all_red_balls (r :: t) = r.reds ++ all_red_balls t := by
  simp [all_red_balls]

theorem all_red_balls_length {results : List Result}
    (hv : ∀ r ∈ results, ValidResult r) :
    (all_red_balls results).length = 6 * results.length := by
  induction results with
  | nil => rfl
  | cons r t ih =>
    have hr : r.reds.length = 6 := (hv r (by simp)).1
    have ht := ih fun x hx => hv x (by simp [hx])
    simp [all_red_balls_cons, hr, ht]
    ring

theorem mem_all_red_balls {results : List Result} {b : Nat} :
    b ∈ all_red_balls results ↔ ∃ r ∈ results, b ∈ r.reds := by
  simp [all_red_balls]

/-! ## Omission fold facts -/

theorem red_omission_fold_absent (results : List Result) (ball a : Nat)
    (h : ∀ r ∈ results, ball ∉ r.reds) :
    results.foldl (fun g r => if ball ∈ r.reds then 0 else g + 1) a =
      a + results.length := by
  induction results generalizing a with
  | nil => simp
  | cons r t ih =>
    have hr : ball ∉ r.reds := h r (by simp)
    have ht := ih (a + 1) fun x hx => h x (by simp [hx])
    simp only [List.foldl_cons, if_neg hr, List.length_cons, ht]
    omega

theorem blue_omission_fold_absent (results : List Result) (ball a : Nat)
    (h : ∀ r ∈ results, ball ≠ r.blue) :
    results.foldl (fun g r => if ball = r.blue then 0 else g + 1) a =
      a + results.length := by
  induction results generalizing a with
  | nil => simp
  | cons r t ih =>
    have hr : ball ≠ r.blue := h r (by simp)
    have ht := ih (a + 1) fun x hx => h x (by simp [hx])
    simp only [List.foldl_cons, if_neg hr, List.length_cons, ht]
    omega

/-! ## Summation helpers -/

theorem sum_ite_not_mem (range : List Nat) (x : Nat) (hx : x ∉ range) :
    (range.map fun b => if x = b then 1 else 0).sum = 0 := by
  induction range with
  | nil => rfl
  | cons y t ih =>
    have hxy : x ≠ y := by intro h; exact hx (by simp [h])
    have hxt : x ∉ t := fun h => hx (by simp [h])
    simp [hxy, ih hxt]

theorem sum_ite_mem (range : List Nat) (x : Nat) (hnd : range.Nodup)
    (hx : x ∈ range) :
    (range.map fun b => if x = b then 1 else 0).sum = 1 := by
  induction range with
  | nil => cases hx
  | cons y t ih =>
    rcases List.mem_cons.1 hx with h | h
    · subst h
      have hxt : x ∉ t := (List.nodup_cons.1 hnd).1
      simp [sum_ite_not_mem t x hxt]
    · have hyx : x ≠ y := by
        intro hxy
        exact (List.nodup_cons.1 hnd).1 (hxy ▸ h)
      simp [hyx, ih (List.nodup_cons.1 hnd).2 h]

theorem sum_count_eq_length (l range : List Nat) (hnd : range.Nodup)
    (h : ∀ x ∈ l, x ∈ range) :
    (range.map fun b => l.count b).sum = l.length := by
  induction l with
  | nil => simp
  | cons x t ih =>
    have hx : x ∈ range := h x (by simp)
    have ht := ih fun y hy => h y (by simp [hy])
    have hcc : (range.map fun b => (x :: t).count b) =
        range.map fun b => t.count b + if x = b then 1 else 0 := by
      refine List.map_congr_left fun b _ => ?_
      rw [List.count_cons]
      simp
    rw [hcc, List.sum_map_add, ht, sum_ite_mem range x hnd hx]
    simp

/-! ## Sorting wrappers -/

theorem sortByValueDesc_perm (l : List (Nat × Nat)) : List.Perm (sortByValueDesc l) l :=
  List.perm_insertionSort _ _

theorem mem_sortByValueDesc {l : List (Nat × Nat)} {p : Nat × Nat} :
    p ∈ sortByValueDesc l ↔ p ∈ l :=
  List.mem_insertionSort _

theorem sortByValueDesc_length (l : List (Nat × Nat)) :
    (sortByValueDesc l).length = l.length :=
  List.length_insertionSort _ _

theorem sortByScoreDesc_perm (l : List (Nat × ℚ)) : List.Perm (sortByScoreDesc l) l :=
  List.perm_insertionSort _ _

/-! ## Omission analyzer lemmas -/

theorem analyze_omission_red_keys (results : List Result) :
    (analyze_omission results).red.map Prod.fst = RED_BALL_RANGE :=
  keys_map_range _ _

theorem analyze_omission_blue_keys (results : List Result) :
    (analyze_omission results).blue.map Prod.fst = BLUE_BALL_RANGE :=
  keys_map_range _ _

theorem red_omission_lookup (results : List Result) (ball : Nat)
    (hb : ball ∈ RED_BALL_RANGE) :
    dictGet (analyze_omission results).red ball 0 =
      red_omission_of results ball :=
  dictGet_map_eq _ _ _ _ hb

theorem blue_omission_lookup (results : List Result) (ball : Nat)
    (hb : ball ∈ BLUE_BALL_RANGE) :
    dictGet (analyze_omission results).blue ball 0 =
      blue_omission_of results ball :=
  dictGet_map_eq _ _ _ _ hb

theorem red_omission_of_absent (results : List Result) (ball : Nat)
    (h : ∀ r ∈ results, ball ∉ r.reds) :
    red_omission_of results ball = results.length := by
  simpa using red_omission_fold_absent results ball 0 h

theorem blue_omission_of_absent (results : List Result) (ball : Nat)
    (h : ∀ r ∈ results, ball ≠ r.blue) :
    blue_omission_of results ball = results.length := by
  simpa using blue_omission_fold_absent results ball 0 h

/-! ## Frequency analyzer lemmas -/

theorem mem_red_counts_table {results : List Result} {p : Nat × Nat}
    (hp : p ∈ red_counts_table results) :
    p.1 ∈ RED_BALL_RANGE ∧ p.2 = red_count_of results p.1 := by
  rcases List.mem_map.1 hp with ⟨b, hb, rfl⟩
  exact ⟨hb, rfl⟩

theorem mem_blue_counts_table {results : List Result} {p : Nat × Nat}
    (hp : p ∈ blue_counts_table results) :
    p.1 ∈ BLUE_BALL_RANGE ∧ p.2 = blue_count_of results p.1 := by
  rcases List.mem_map.1 hp with ⟨b, hb, rfl⟩
  exact ⟨hb, rfl⟩

theorem mem_freq_red {results : List Result} {top_n : Nat} {p : Nat × Nat}
    (hp : p ∈ (analyze_frequency results top_n).red) :
    p.1 ∈ RED_BALL_RANGE ∧ p.2 = red_count_of results p.1 :=
  mem_red_counts_table (mem_sortByValueDesc.1 (List.take_subset _ _ hp))

theorem mem_freq_blue {results : List Result} {top_n : Nat} {p : Nat × Nat}
    (hp : p ∈ (analyze_frequency results top_n).blue) :
    p.1 ∈ BLUE_BALL_RANGE ∧ p.2 = blue_count_of results p.1 :=
  mem_blue_counts_table (mem_sortByValueDesc.1 (List.take_subset _ _ hp))

theorem analyze_frequency_red_length (results : List Result) (top_n : Nat) :
    (analyze_frequency results top_n).red.length = min top_n 33 := by
  simp [analyze_frequency, sortByValueDesc_length, red_counts_table,
    RED_BALL_RANGE]

theorem analyze_frequency_blue_length (results : List Result) (top_n : Nat) :
    (analyze_frequency results top_n).blue.length = min top_n 16 := by
  simp [analyze_frequency, sortByValueDesc_length, blue_counts_table,
    BLUE_BALL_RANGE]

/-! ## Partition identities for the ratio and zone tallies -/

theorem red_parity_partition (results : List Result) :
    red_odd_count results + red_even_count results =
      (all_red_balls results).length := by
  unfold red_odd_count red_even_count
  exact countP_decide_add _ _

theorem red_size_partition (results : List Result) :
    red_big_count results + red_small_count results =
      (all_red_balls results).length := by
  unfold red_big_count red_small_count
  exact countP_decide_add _ _

theorem blue_parity_partition (results : List Result) :
    blue_odd_count results + blue_even_count results = results.length := by
  unfold blue_odd_count blue_even_count
  exact countP_decide_add _ _

theorem blue_size_partition (results : List Result) :
    blue_big_count results + blue_small_count results = results.length := by
  unfold blue_big_count blue_small_count
  exact countP_decide_add _ _

theorem red_zone_partition (results : List Result) :
    red_zone_total results = (all_red_balls results).length := by
  unfold red_zone_total rz1_count rz2_count rz3_count
  exact countP_zone_tri _

theorem blue_zone_partition (results : List Result) :
    blue_zone_total results = results.length := by
  unfold blue_zone_total bz1_count bz2_count
  exact countP_decide_add _ _

theorem red_ratio_total_eq (results : List Result) :
    red_ratio_total results = 2 * (all_red_balls results).length := by
  unfold red_ratio_total
  have h1 := red_parity_partition results
  have h2 := red_size_partition results
  omega

theorem blue_ratio_total_eq (results : List Result) :
    blue_ratio_total results = 2 * results.length := by
  unfold blue_ratio_total
  have h1 := blue_parity_partition results
  have h2 := blue_size_partition results
  omega

/-! ## The analyzers succeed on valid non-empty corpora -/

theorem red_occurrences_pos {results : List Result}
    (hv : ∀ r ∈ results, ValidResult r) (hne : results ≠ []) :
    (all_red_balls results).length ≠ 0 := by
  rw [all_red_balls_length hv]
  have : 0 < results.length := List.length_pos.2 hne
  omega

theorem analyze_distribution_eq (results : List Result)
    (hv : ∀ r ∈ results, ValidResult r) (hne : results ≠ []) :
    analyze_distribution results = some
      { z1 := (rz1_count results : ℚ) / (red_zone_total results : ℚ)
        z2 := (rz2_count results : ℚ) / (red_zone_total results : ℚ)
        z3 := (rz3_count results : ℚ) / (red_zone_total results : ℚ)
        b1 := (bz1_count results : ℚ) / (blue_zone_total results : ℚ)
        b2 := (bz2_count results : ℚ) / (blue_zone_total results : ℚ) } := by
  have h1 : red_zone_total results ≠ 0 := by
    rw [red_zone_partition]
    exact red_occurrences_pos hv hne
  have h2 : blue_zone_total results ≠ 0 := by
    rw [blue_zone_partition]
    have : 0 < results.length := List.length_pos.2 hne
    omega
  unfold analyze_distribution
  rw [if_neg (by push_neg; exact ⟨h1, h2⟩)]

theorem analyze_ratios_eq (results : List Result)
    (hv : ∀ r ∈ results, ValidResult r) (hne : results ≠ []) :
    analyze_ratios results = some
      { red :=
          { odd := (red_odd_count results : ℚ) / ((red_ratio_total results : ℚ) / 2)
            even := (red_even_count results : ℚ) / ((red_ratio_total results : ℚ) / 2)
            big := (red_big_count results : ℚ) / ((red_ratio_total results : ℚ) / 2)
            small := (red_small_count results : ℚ) / ((red_ratio_total results : ℚ) / 2) }
        blue :=
          { odd := (blue_odd_count results : ℚ) / ((blue_ratio_total results : ℚ) / 2)
            even := (blue_even_count results : ℚ) / ((blue_ratio_total results : ℚ) / 2)
            big := (blue_big_count results : ℚ) / ((blue_ratio_total results : ℚ) / 2)
            small := (blue_small_count results : ℚ) / ((blue_ratio_total results : ℚ) / 2) } } := by
  have h1 : red_ratio_total results ≠ 0 := by
    rw [red_ratio_total_eq]
    have := red_occurrences_pos hv hne
    omega
  have h2 : blue_ratio_total results ≠ 0 := by
    rw [blue_ratio_total_eq]
    have : 0 < results.length := List.length_pos.2 hne
    omega
  unfold analyze_ratios
  rw [if_neg (by push_neg; exact ⟨h1, h2⟩)]

theorem ratiosOf_eq (results : List Result)
    (hv : ∀ r ∈ results, ValidResult r) (hne : results ≠ []) :
    analyze_ratios results = some (ratiosOf results) := by
  rw [analyze_ratios_eq results hv hne]
  unfold ratiosOf
  rw [analyze_ratios_eq results hv hne]
  rfl

theorem zonesOf_eq (results : List Result)
    (hv : ∀ r ∈ results, ValidResult r) (hne : results ≠ []) :
    analyze_distribution results = some (zonesOf results) := by
  rw [analyze_distribution_eq results hv hne]
  unfold zonesOf
  rw [analyze_distribution_eq results hv hne]
  rfl

/-! ## Predictor unfolding -/

theorem predict_eq_ok (results : List Result) (rt : RatioResult)
    (z : ZoneResult) (h30 : 30 ≤ results.length)
    (hrt : analyze_ratios results = some rt)
    (hz : analyze_distribution results = some z) :
    predict_next_result results = .ok (mkPrediction results rt z) := by
  unfold predict_next_result
  have hcond : ¬(results = [] ∨ results.length < 30) := by
    rintro (rfl | hlt)
    · simp at h30
    · omega
  rw [if_neg hcond, hrt, hz]

theorem predict_insufficient (results : List Result)
    (h : results.length < 30) :
    predict_next_result results = .error .insufficientData := by
  unfold predict_next_result
  rw [if_pos (Or.inr h)]

theorem predictionOf_eq (results : List Result) (rt : RatioResult)
    (z : ZoneResult) (h30 : 30 ≤ results.length)
    (hrt : analyze_ratios results = some rt)
    (hz : analyze_distribution results = some z) :
    predictionOf results = mkPrediction results rt z := by
  unfold predictionOf
  rw [predict_eq_ok results rt z h30 hrt hz]
  rfl

/-! ## Candidate pool lemmas -/

theorem mem_red_candidate_list {results : List Result} {rt : RatioResult}
    {z : ZoneResult} {b : Nat} :
    b ∈ red_candidate_list results rt z ↔
      b ∈ red_pool_freq results ∨ b ∈ red_pool_omission results ∨
        b ∈ red_pool_zone results z ∨ b ∈ red_pool_parity rt := by
  unfold red_candidate_list
  rw [List.mem_insertionSort _, List.mem_dedup]
  simp [or_assoc]

theorem mem_blue_candidate_list {results : List Result} {rt : RatioResult}
    {b : Nat} :
    b ∈ blue_candidate_list results rt ↔
      b ∈ blue_pool_freq results ∨ b ∈ blue_pool_omission results ∨
        b ∈ blue_pool_parity rt := by
  unfold blue_candidate_list
  rw [List.mem_insertionSort _, List.mem_dedup]
  simp [or_assoc]

theorem red_candidate_list_nodup (results : List Result) (rt : RatioResult)
    (z : ZoneResult) : (red_candidate_list results rt z).Nodup :=
  (List.perm_insertionSort _ _).symm.nodup (List.nodup_dedup _)

theorem blue_candidate_list_nodup (results : List Result) (rt : RatioResult) :
    (blue_candidate_list results rt).Nodup :=
  (List.perm_insertionSort _ _).symm.nodup (List.nodup_dedup _)

theorem red_pool_freq_subset {results : List Result} {b : Nat}
    (hb : b ∈ red_pool_freq results) : b ∈ RED_BALL_RANGE := by
  unfold red_pool_freq at hb
  have hb' : b ∈ (analyze_frequency results 10).red.map Prod.fst :=
    List.take_subset _ _ hb
  rcases List.mem_map.1 hb' with ⟨p, hp, rfl⟩
  exact (mem_freq_red hp).1

theorem blue_pool_freq_subset {results : List Result} {b : Nat}
    (hb : b ∈ blue_pool_freq results) : b ∈ BLUE_BALL_RANGE := by
  unfold blue_pool_freq at hb
  have hb' : b ∈ (analyze_frequency results 10).blue.map Prod.fst :=
    List.take_subset _ _ hb
  rcases List.mem_map.1 hb' with ⟨p, hp, rfl⟩
  exact (mem_freq_blue hp).1

theorem mem_omission_red {results : List Result} {p : Nat × Nat}
    (hp : p ∈ (analyze_omission results).red) : p.1 ∈ RED_BALL_RANGE := by
  rcases List.mem_map.1 hp with ⟨x, hx, rfl⟩
  exact hx

theorem mem_omission_blue {results : List Result} {p : Nat × Nat}
    (hp : p ∈ (analyze_omission results).blue) : p.1 ∈ BLUE_BALL_RANGE := by
  rcases List.mem_map.1 hp with ⟨x, hx, rfl⟩
  exact hx

theorem red_pool_omission_subset {results : List Result} {b : Nat}
    (hb : b ∈ red_pool_omission results) : b ∈ RED_BALL_RANGE := by
  unfold red_pool_omission at hb
  rcases List.mem_map.1 hb with ⟨p, hp, rfl⟩
  exact mem_omission_red (mem_sortByValueDesc.1 (List.take_subset _ _ hp))

theorem blue_pool_omission_subset {results : List Result} {b : Nat}
    (hb : b ∈ blue_pool_omission results) : b ∈ BLUE_BALL_RANGE := by
  unfold blue_pool_omission at hb
  rcases List.mem_map.1 hb with ⟨p, hp, rfl⟩
  exact mem_omission_blue (mem_sortByValueDesc.1 (List.take_subset _ _ hp))

theorem max_red_zone_cases (z : ZoneResult) :
    max_red_zone z = (1, 11) ∨ max_red_zone z = (12, 22) ∨
      max_red_zone z = (23, 33) := by
  unfold max_red_zone
  by_cases h1 : z.z1 < z.z2
  · by_cases h2 : z.z2 < z.z3 <;> simp [h1, h2]
  · by_cases h2 : z.z1 < z.z3 <;> simp [h1, h2]

theorem red_pool_zone_subset {results : List Result} {z : ZoneResult}
    {b : Nat} (hb : b ∈ red_pool_zone results z) : b ∈ RED_BALL_RANGE := by
  unfold red_pool_zone at hb
  have hb' := (List.mem_filter.1 hb).1
  rw [mem_RED_BALL_RANGE]
  rcases max_red_zone_cases z with h | h | h <;> rw [h] at hb' <;>
    simp only [List.mem_range'_1] at hb' <;> omega

theorem red_pool_parity_subset {rt : RatioResult} {b : Nat}
    (hb : b ∈ red_pool_parity rt) : b ∈ RED_BALL_RANGE :=
  (List.mem_filter.1 hb).1

theorem blue_pool_parity_subset {rt : RatioResult} {b : Nat}
    (hb : b ∈ blue_pool_parity rt) : b ∈ BLUE_BALL_RANGE :=
  (List.mem_filter.1 hb).1

theorem red_candidate_subset {results : List Result} {rt : RatioResult}
    {z : ZoneResult} {b : Nat} (hb : b ∈ red_candidate_list results rt z) :
    b ∈ RED_BALL_RANGE := by
  rcases mem_red_candidate_list.1 hb with h | h | h | h
  exacts [red_pool_freq_subset h, red_pool_omission_subset h,
    red_pool_zone_subset h, red_pool_parity_subset h]

theorem blue_candidate_subset {results : List Result} {rt : RatioResult}
    {b : Nat} (hb : b ∈ blue_candidate_list results rt) :
    b ∈ BLUE_BALL_RANGE := by
  rcases mem_blue_candidate_list.1 hb with h | h | h
  exacts [blue_pool_freq_subset h, blue_pool_omission_subset h,
    blue_pool_parity_subset h]

theorem red_pool_parity_length (rt : RatioResult) :
    16 ≤ (red_pool_parity rt).length := by
  unfold red_pool_parity
  by_cases h : rt.red.odd > 1/2 <;> simp only [h, if_true, if_false,
    ite_true, ite_false] <;> decide

theorem blue_pool_parity_length (rt : RatioResult) :
    8 ≤ (blue_pool_parity rt).length := by
  unfold blue_pool_parity
  by_cases h : rt.blue.odd > 1/2 <;> simp only [h, if_true, if_false,
    ite_true, ite_false] <;> decide

theorem red_pool_parity_nodup (rt : RatioResult) :
    (red_pool_parity rt).Nodup :=
  (by decide : (List.range' 1 33).Nodup).filter _

theorem blue_pool_parity_nodup (rt : RatioResult) :
    (blue_pool_parity rt).Nodup :=
  (by decide : (List.range' 1 16).Nodup).filter _

theorem red_candidate_list_length (results : List Result) (rt : RatioResult)
    (z : ZoneResult) : 16 ≤ (red_candidate_list results rt z).length := by
  refine le_trans (red_pool_parity_length rt) ?_
  refine (List.subperm_of_subset (red_pool_parity_nodup rt) ?_).length_le
  intro b hb
  exact mem_red_candidate_list.2 (Or.inr (Or.inr (Or.inr hb)))

theorem blue_candidate_list_length (results : List Result)
    (rt : RatioResult) : 8 ≤ (blue_candidate_list results rt).length := by
  refine le_trans (blue_pool_parity_length rt) ?_
  refine (List.subperm_of_subset (blue_pool_parity_nodup rt) ?_).length_le
  intro b hb
  exact mem_blue_candidate_list.2 (Or.inr (Or.inr hb))

/-! ## Selection lemmas -/

theorem headD_mem {α : Type} {l : List α} (d : α) (h : l ≠ []) :
    l.headD d ∈ l := by
  cases l with
  | nil => exact absurd rfl h
  | cons x t => simp

theorem mkPrediction_red_candidates (results : List Result) (rt : RatioResult)
    (z : ZoneResult) :
    (mkPrediction results rt z).red_candidates =
      red_candidate_list results rt z := by
  unfold mkPrediction
  with_reducible rfl

theorem mkPrediction_blue_candidates (results : List Result)
    (rt : RatioResult) (z : ZoneResult) :
    (mkPrediction results rt z).blue_candidates =
      blue_candidate_list results rt := by
  unfold mkPrediction
  with_reducible rfl

theorem mkPrediction_suggested_reds (results : List Result) (rt : RatioResult)
    (z : ZoneResult) :
    (mkPrediction results rt z).suggested_reds =
      List.insertionSort (· ≤ ·)
        (((sortByScoreDesc ((red_candidate_list results rt z).map
          fun b => (b, red_score results z rt b))).take 6).map Prod.fst) := by
  unfold mkPrediction
  with_reducible rfl

theorem mkPrediction_suggested_blue (results : List Result) (rt : RatioResult)
    (z : ZoneResult) :
    (mkPrediction results rt z).suggested_blue =
      ((sortByScoreDesc ((blue_candidate_list results rt).map
        fun b => (b, blue_score results z b))).headD (0, 0)).1 := by
  unfold mkPrediction
  with_reducible rfl

theorem top6_red_keys_spec (results : List Result) (rt : RatioResult)
    (z : ZoneResult) :
    ((sortByScoreDesc ((red_candidate_list results rt z).map
        fun b => (b, red_score results z rt b))).take 6).map Prod.fst =
      ((sortByScoreDesc ((red_candidate_list results rt z).map
        fun b => (b, red_score results z rt b))).map Prod.fst).take 6 :=
  List.map_take ..

theorem sorted_red_keys_perm (results : List Result) (rt : RatioResult)
    (z : ZoneResult) :
    List.Perm
      ((sortByScoreDesc ((red_candidate_list results rt z).map
        fun b => (b, red_score results z rt b))).map Prod.fst)
      (red_candidate_list results rt z) := by
  have h := (sortByScoreDesc_perm ((red_candidate_list results rt z).map
    fun b => (b, red_score results z rt b))).map Prod.fst
  rwa [keys_map_range] at h

theorem suggested_reds_spec (results : List Result) (rt : RatioResult)
    (z : ZoneResult) :
    (mkPrediction results rt z).suggested_reds.length = 6 ∧
      (mkPrediction results rt z).suggested_reds.Nodup ∧
      List.Sorted (· ≤ ·) (mkPrediction results rt z).suggested_reds ∧
      ∀ b ∈ (mkPrediction results rt z).suggested_reds, b ∈ RED_BALL_RANGE := by
  rw [mkPrediction_suggested_reds, top6_red_keys_spec]
  have hperm := sorted_red_keys_perm results rt z
  have hkeylen : ((sortByScoreDesc ((red_candidate_list results rt z).map
      fun b => (b, red_score results z rt b))).map Prod.fst).length =
      (red_candidate_list results rt z).length := hperm.length_eq
  have h16 := red_candidate_list_length results rt z
  have hnodup : ((sortByScoreDesc ((red_candidate_list results rt z).map
      fun b => (b, red_score results z rt b))).map Prod.fst).Nodup :=
    hperm.symm.nodup (red_candidate_list_nodup results rt z)
  have hl6nodup := (List.take_sublist 6 _).nodup hnodup
  have hl6len : (((sortByScoreDesc ((red_candidate_list results rt z).map
      fun b => (b, red_score results z rt b))).map Prod.fst).take 6).length =
      6 := by
    rw [List.length_take, hkeylen]
    omega
  have hsortperm := List.perm_insertionSort (α := Nat) (· ≤ ·)
    (((sortByScoreDesc ((red_candidate_list results rt z).map
      fun b => (b, red_score results z rt b))).map Prod.fst).take 6)
  refine ⟨by rw [hsortperm.length_eq, hl6len], hsortperm.symm.nodup hl6nodup,
    List.sorted_insertionSort _ _, ?_⟩
  intro b hb
  have hb6 : b ∈ ((sortByScoreDesc ((red_candidate_list results rt z).map
      fun b => (b, red_score results z rt b))).map Prod.fst).take 6 :=
    (List.mem_insertionSort _).1 hb
  have hbk : b ∈ red_candidate_list results rt z :=
    hperm.subset (List.take_subset _ _ hb6)
  exact red_candidate_subset hbk

theorem suggested_blue_spec (results : List Result) (rt : RatioResult)
    (z : ZoneResult) :
    (mkPrediction results rt z).suggested_blue ∈
      blue_candidate_list results rt := by
  rw [mkPrediction_suggested_blue]
  have hlen : (sortByScoreDesc ((blue_candidate_list results rt).map
      fun b => (b, blue_score results z b))).length =
      (blue_candidate_list results rt).length := by
    rw [(sortByScoreDesc_perm _).length_eq, List.length_map]
  have hne : sortByScoreDesc ((blue_candidate_list results rt).map
      fun b => (b, blue_score results z b)) ≠ [] := by
    have h8 := blue_candidate_list_length results rt
    intro hnil
    rw [hnil] at hlen
    simp at hlen
    omega
  have hmem := headD_mem ((0 : Nat), (0 : ℚ)) hne
  have hmem' := (sortByScoreDesc_perm _).subset hmem
  rcases List.mem_map.1 hmem' with ⟨a, ha, heq⟩
  rw [← heq]
  exact ha

/-! ## The truncation collapse behind the amended claim C4 -/

theorem red_pool_freq_eq (results : List Result) :
    red_pool_freq results = amended_red_top10 results := by
  unfold red_pool_freq amended_red_top10 analyze_frequency
  rw [List.map_take, List.take_take]
  norm_num

theorem blue_pool_freq_eq (results : List Result) :
    blue_pool_freq results = claim_blue_top5 results := by
  unfold blue_pool_freq claim_blue_top5 analyze_frequency
  rw [List.map_take, List.take_take]
  norm_num

theorem red_candidate_list_amended (results : List Result) (rt : RatioResult)
    (z : ZoneResult) :
    red_candidate_list results rt z =
      amended_red_candidate_list results rt z := by
  unfold red_candidate_list amended_red_candidate_list
  rw [red_pool_freq_eq]

theorem blue_candidate_list_claim (results : List Result) (rt : RatioResult) :
    blue_candidate_list results rt = claim_blue_candidate_list results rt := by
  unfold blue_candidate_list claim_blue_candidate_list
  rw [blue_pool_freq_eq]

/-! ## Frequency count sums (claim C7) -/

theorem vals_map_range {β : Type} (f : Nat → β) (l : List Nat) :
    ((l.map fun b => (b, f b)).map Prod.snd) = l.map f := by
  induction l with
  | nil => rfl
  | cons x t ih => simp [ih]

theorem sum_red_count_of (results : List Result)
    (hv : ∀ r ∈ results, ValidResult r) :
    (RED_BALL_RANGE.map fun b => red_count_of results b).sum =
      6 * results.length := by
  induction results with
  | nil => simp [red_count_of]
  | cons r t ih =>
    have hr := hv r (by simp)
    have hcc : (RED_BALL_RANGE.map fun b => red_count_of (r :: t) b) =
        RED_BALL_RANGE.map fun b => r.reds.count b + red_count_of t b := by
      refine List.map_congr_left fun b _ => ?_
      simp [red_count_of]
    rw [hcc, List.sum_map_add, ih fun x hx => hv x (by simp [hx]),
      sum_count_eq_length r.reds RED_BALL_RANGE RED_BALL_RANGE_nodup hr.2.2.1,
      hr.1]
    simp
    ring

theorem sum_blue_count_of (results : List Result)
    (hv : ∀ r ∈ results, ValidResult r) :
    (BLUE_BALL_RANGE.map fun b => blue_count_of results b).sum =
      results.length := by
  induction results with
  | nil => simp [blue_count_of]
  | cons r t ih =>
    have hr := hv r (by simp)
    have hcc : (BLUE_BALL_RANGE.map fun b => blue_count_of (r :: t) b) =
        BLUE_BALL_RANGE.map fun b =>
          blue_count_of t b + if r.blue = b then 1 else 0 := by
      refine List.map_congr_left fun b _ => ?_
      simp [blue_count_of, List.countP_cons]
    rw [hcc, List.sum_map_add, ih fun x hx => hv x (by simp [hx]),
      sum_ite_mem BLUE_BALL_RANGE r.blue BLUE_BALL_RANGE_nodup hr.2.2.2]
    simp

theorem sum_red_counts_table (results : List Result)
    (hv : ∀ r ∈ results, ValidResult r) :
    ((red_counts_table results).map Prod.snd).sum = 6 * results.length := by
  unfold red_counts_table
  rw [vals_map_range]
  exact sum_red_count_of results hv

theorem sum_blue_counts_table (results : List Result)
    (hv : ∀ r ∈ results, ValidResult r) :
    ((blue_counts_table results).map Prod.snd).sum = results.length := by
  unfold blue_counts_table
  rw [vals_map_range]
  exact sum_blue_count_of results hv

theorem sum_freq_full_red (results : List Result)
    (hv : ∀ r ∈ results, ValidResult r) :
    ((analyze_frequency results 33).red.map Prod.snd).sum =
      6 * results.length := by
  have hproj : (analyze_frequency results 33).red =
      (sortByValueDesc (red_counts_table results)).take 33 := by
    unfold analyze_frequency
    with_reducible rfl
  rw [hproj, List.take_of_length_le (by
    rw [sortByValueDesc_length]
    simp [red_counts_table, RED_BALL_RANGE])]
  rw [((sortByValueDesc_perm (red_counts_table results)).map Prod.snd).sum_eq]
  exact sum_red_counts_table results hv

theorem sum_freq_full_blue (results : List Result)
    (hv : ∀ r ∈ results, ValidResult r) :
    ((analyze_frequency results 16).blue.map Prod.snd).sum =
      results.length := by
  have hproj : (analyze_frequency results 16).blue =
      (sortByValueDesc (blue_counts_table results)).take 16 := by
    unfold analyze_frequency
    with_reducible rfl
  rw [hproj, List.take_of_length_le (by
    rw [sortByValueDesc_length]
    simp [blue_counts_table, BLUE_BALL_RANGE])]
  rw [((sortByValueDesc_perm (blue_counts_table results)).map Prod.snd).sum_eq]
  exact sum_blue_counts_table results hv

/-! ## Division arithmetic for the normalization invariants (claim C8) -/

theorem two_div_sum {a b T : Nat} (hT : a + b = T) (h0 : T ≠ 0) :
    (a : ℚ) / (T : ℚ) + (b : ℚ) / (T : ℚ) = 1 := by
  have hTQ : (T : ℚ) ≠ 0 := Nat.cast_ne_zero.2 h0
  rw [div_add_div_same, show (a : ℚ) + (b : ℚ) = (T : ℚ) from by
    exact_mod_cast hT]
  exact div_self hTQ

theorem tri_div_sum {a b c T : Nat} (hT : a + b + c = T) (h0 : T ≠ 0) :
    (a : ℚ) / (T : ℚ) + (b : ℚ) / (T : ℚ) + (c : ℚ) / (T : ℚ) = 1 := by
  have hTQ : (T : ℚ) ≠ 0 := Nat.cast_ne_zero.2 h0
  rw [div_add_div_same, div_add_div_same,
    show (a : ℚ) + (b : ℚ) + (c : ℚ) = (T : ℚ) from by exact_mod_cast hT]
  exact div_self hTQ

theorem pair_div_sum {a b S L : Nat} (hpart : a + b = L) (hS : S = 2 * L)
    (hL : L ≠ 0) :
    (a : ℚ) / ((S : ℚ) / 2) + (b : ℚ) / ((S : ℚ) / 2) = 1 := by
  have hLQ : (L : ℚ) ≠ 0 := Nat.cast_ne_zero.2 hL
  rw [div_add_div_same, show (a : ℚ) + (b : ℚ) = (L : ℚ) from by
    exact_mod_cast hpart,
    show (S : ℚ) = 2 * (L : ℚ) from by exact_mod_cast hS,
    show (2 * (L : ℚ)) / 2 = (L : ℚ) from by ring]
  exact div_self hLQ

/-! ## Claim theorems -/

/-- C1 (code bug evaluation).  The claim (and the spec) say the omission
analyzer walks the draws from oldest to newest — the reverse of the
newest-first storage order — so that a ball appearing in the most recent
draw has omission 0.  The code iterates `for result in results` in
storage order instead.  On the spec's own two-draw example: ball 2 is in
the most recent draw (index 0), the spec-described oldest-to-newest walk
yields omission 0, but the code yields omission 1. -/
theorem C1_omission_walks_storage_order :
    specExample.head? = some { reds := [1, 2, 3, 4, 5, 6], blue := 3 } ∧
    2 ∈ ({ reds := [1, 2, 3, 4, 5, 6], blue := 3 } : Result).reds ∧
    dictGet (analyze_omission specExample).red 2 0 = 1 ∧
    spec_red_omission_of specExample 2 = 0 := by
  decide

/-- C3 (code bug evaluation).  The claim says every analyzer returns a
well-defined empty or zero-valued result on the empty corpus instead of
failing with a division fault.  The frequency and omission analyzers do
return all-zero tables, but `analyze_distribution` and the source's
`analyze_ratio` divide by a zero total on the empty corpus (Python
`ZeroDivisionError`, embedded as `none`). -/
theorem C3_empty_corpus_behavior :
    analyze_distribution ([] : List Result) = none ∧
    analyze_ratios ([] : List Result) = none ∧
    (∀ p ∈ (analyze_frequency ([] : List Result) 10).red, p.2 = 0) ∧
    (∀ p ∈ (analyze_frequency ([] : List Result) 10).blue, p.2 = 0) ∧
    (∀ p ∈ (analyze_omission ([] : List Result)).red, p.2 = 0) ∧
    (∀ p ∈ (analyze_omission ([] : List Result)).blue, p.2 = 0) := by
  decide

/-- C6.  For every corpus the omission analyzer returns tables whose key
set is the full ball domain (red 1..33, blue 1..16), every value is a
non-negative integer, and a ball appearing in no draw has omission
exactly the corpus length. -/
theorem C6_omission_full_domain (results : List Result) :
    ((analyze_omission results).red.map Prod.fst = RED_BALL_RANGE ∧
      (analyze_omission results).blue.map Prod.fst = BLUE_BALL_RANGE) ∧
    (∀ p ∈ (analyze_omission results).red, 0 ≤ p.2) ∧
    (∀ p ∈ (analyze_omission results).blue, 0 ≤ p.2) ∧
    (∀ ball ∈ RED_BALL_RANGE, (∀ r ∈ results, ball ∉ r.reds) →
      dictGet (analyze_omission results).red ball 0 = results.length) ∧
    (∀ ball ∈ BLUE_BALL_RANGE, (∀ r ∈ results, ball ≠ r.blue) →
      dictGet (analyze_omission results).blue ball 0 = results.length) := by
  refine ⟨⟨analyze_omission_red_keys results, analyze_omission_blue_keys results⟩,
    fun p _ => Nat.zero_le _, fun p _ => Nat.zero_le _, ?_, ?_⟩
  · intro ball hb habs
    rw [red_omission_lookup results ball hb]
    exact red_omission_of_absent results ball habs
  · intro ball hb habs
    rw [blue_omission_lookup results ball hb]
    exact blue_omission_of_absent results ball habs

/-- Witness for C6 at the spec's two-draw example: ball 33 appears in no
draw and its omission is the corpus length 2. -/
theorem C6_omission_full_domain_witness :
    (∀ r ∈ specExample, (33 : Nat) ∉ r.reds) ∧
    dictGet (analyze_omission specExample).red 33 0 = specExample.length :=
  ⟨by decide,
    (C6_omission_full_domain specExample).2.2.2.1 33 (by decide) (by decide)⟩

/-- C10.  The frequency analyzer initializes a zero count for every
domain ball before counting, so its output always has exactly
`min top_n 33` red entries and `min top_n 16` blue entries, and a
returned entry with count 0 is a ball that appears in no draw. -/
theorem C10_frequency_shape (results : List Result) (top_n : Nat) :
    (analyze_frequency results top_n).red.length = min top_n 33 ∧
    (analyze_frequency results top_n).blue.length = min top_n 16 ∧
    ∀ p ∈ (analyze_frequency results top_n).red, p.2 = 0 →
      ∀ r ∈ results, p.1 ∉ r.reds := by
  refine ⟨analyze_frequency_red_length results top_n,
    analyze_frequency_blue_length results top_n, ?_⟩
  intro p hp hzero r hr
  have h2 := (mem_freq_red hp).2
  rw [hzero] at h2
  have hsum : (results.map fun x => x.reds.count p.1).sum = 0 := by
    unfold red_count_of at h2
    omega
  have hzr : r.reds.count p.1 = 0 :=
    List.sum_eq_zero_iff.1 hsum _ (List.mem_map_of_mem _ hr)
  exact List.count_eq_zero.1 hzr

/-- Witness for C10 at the spec's example with `top_n = 33`: the red
table has all 33 entries, the blue table all 16. -/
theorem C10_frequency_shape_witness :
    (analyze_frequency specExample 33).red.length = min 33 33 ∧
    (analyze_frequency specExample 33).blue.length = min 33 16 :=
  ⟨(C10_frequency_shape specExample 33).1,
    (C10_frequency_shape specExample 33).2.1⟩

/-- C7 counterexample.  On the spec's own two-draw example (12 red
occurrences over 11 distinct balls), the counts actually returned by
`analyze_frequency` (default `top_n = 10`) sum to 11, not
`6 × corpusSize = 12`, because the table is truncated to its top 10
entries and the observed ball 11 is cut off. -/
theorem C7_truncated_sum_counterexample :
    ((analyze_frequency specExample 10).red.map Prod.snd).sum = 11 ∧
    6 * specExample.length = 12 ∧
    ((analyze_frequency specExample 10).red.map Prod.snd).sum ≠
      6 * specExample.length := by
  decide

/-- C7 as amended.  The frequency counts before the `top_n` truncation
sum to `6 × corpusSize` for red and to `corpusSize` for blue;
equivalently the returned tables have these sums whenever `top_n` covers
the whole domain (`top_n = 33` red, `top_n = 16` blue). -/
theorem C7_frequency_sums_amended (results : List Result)
    (hv : ∀ r ∈ results, ValidResult r) :
    ((red_counts_table results).map Prod.snd).sum = 6 * results.length ∧
    ((blue_counts_table results).map Prod.snd).sum = results.length ∧
    ((analyze_frequency results 33).red.map Prod.snd).sum =
      6 * results.length ∧
    ((analyze_frequency results 16).blue.map Prod.snd).sum =
      results.length :=
  ⟨sum_red_counts_table results hv, sum_blue_counts_table results hv,
    sum_freq_full_red results hv, sum_freq_full_blue results hv⟩

/-- Witness for the amended C7 at the spec's example. -/
theorem C7_frequency_sums_amended_witness :
    (∀ r ∈ specExample, ValidResult r) ∧
    ((red_counts_table specExample).map Prod.snd).sum =
      6 * specExample.length :=
  ⟨by decide, (C7_frequency_sums_amended specExample (by decide)).1⟩

set_option maxRecDepth 4000 in
/-- C5 counterexample.  At the 30-record sample corpus the even parity
share exceeds one half, so ball 2 earns the parity bonus: the code adds
`0.1`, while the claim's literal formula `0.1 × parityBonus` with
`parityBonus = 0.1` adds only `0.01` — the two scores differ. -/
theorem C5_parity_bonus_counterexample :
    red_score sampleCorpus (zonesOf sampleCorpus) (ratiosOf sampleCorpus) 2 ≠
      claim_red_score sampleCorpus (zonesOf sampleCorpus)
        (ratiosOf sampleCorpus) 2 := by
  with_unfolding_all decide

/-- C5 as amended.  For every corpus, zone table, ratio table and ball,
the code's red score is the claimed weighted sum with `parityBonus = 1`
on a parity match (so the parity summand is `0.1`, not `0.1 × 0.1`), and
the code's blue score is exactly the claimed
`0.5×frequency + 0.3×(1/(omission+1)) + 0.2×zoneFraction`; both read a
ball absent from the frequency table as frequency 0. -/
theorem C5_score_formula_amended (results : List Result) (z : ZoneResult)
    (rt : RatioResult) (ball : Nat) :
    red_score results z rt ball = amended_red_score results z rt ball ∧
    blue_score results z ball = claim_blue_score results z ball := by
  constructor
  · unfold red_score amended_red_score
    split_ifs <;> ring
  · unfold blue_score claim_blue_score
    split_ifs <;> ring

/-- C8.  On a valid non-empty corpus both normalizing analyzers succeed,
the three red zone fractions and the two blue zone fractions each sum to
exactly 1, and each odd/even and high/low pair sums to exactly 1, in
exact rational arithmetic. -/
theorem C8_fractions_sum_to_one (results : List Result)
    (hv : ∀ r ∈ results, ValidResult r) (hne : results ≠ []) :
    analyze_distribution results = some (zonesOf results) ∧
    (zonesOf results).z1 + (zonesOf results).z2 + (zonesOf results).z3 = 1 ∧
    (zonesOf results).b1 + (zonesOf results).b2 = 1 ∧
    analyze_ratios results = some (ratiosOf results) ∧
    (ratiosOf results).red.odd + (ratiosOf results).red.even = 1 ∧
    (ratiosOf results).red.big + (ratiosOf results).red.small = 1 ∧
    (ratiosOf results).blue.odd + (ratiosOf results).blue.even = 1 ∧
    (ratiosOf results).blue.big + (ratiosOf results).blue.small = 1 := by
  have hz : zonesOf results =
      { z1 := (rz1_count results : ℚ) / (red_zone_total results : ℚ)
        z2 := (rz2_count results : ℚ) / (red_zone_total results : ℚ)
        z3 := (rz3_count results : ℚ) / (red_zone_total results : ℚ)
        b1 := (bz1_count results : ℚ) / (blue_zone_total results : ℚ)
        b2 := (bz2_count results : ℚ) / (blue_zone_total results : ℚ) } := by
    unfold zonesOf
    rw [analyze_distribution_eq results hv hne]
    rfl
  have hr : ratiosOf results =
      { red :=
          { odd := (red_odd_count results : ℚ) /
              ((red_ratio_total results : ℚ) / 2)
            even := (red_even_count results : ℚ) /
              ((red_ratio_total results : ℚ) / 2)
            big := (red_big_count results : ℚ) /
              ((red_ratio_total results : ℚ) / 2)
            small := (red_small_count results : ℚ) /
              ((red_ratio_total results : ℚ) / 2) }
        blue :=
          { odd := (blue_odd_count results : ℚ) /
              ((blue_ratio_total results : ℚ) / 2)
            even := (blue_even_count results : ℚ) /
              ((blue_ratio_total results : ℚ) / 2)
            big := (blue_big_count results : ℚ) /
              ((blue_ratio_total results : ℚ) / 2)
            small := (blue_small_count results : ℚ) /
              ((blue_ratio_total results : ℚ) / 2) } } := by
    unfold ratiosOf
    rw [analyze_ratios_eq results hv hne]
    rfl
  have hL : (all_red_balls results).length ≠ 0 := red_occurrences_pos hv hne
  have hN : results.length ≠ 0 := (List.length_pos.2 hne).ne'
  have hzr : red_zone_total results ≠ 0 := by
    rw [red_zone_partition]
    exact hL
  have hzb : blue_zone_total results ≠ 0 := by
    rw [blue_zone_partition]
    exact hN
  refine ⟨zonesOf_eq results hv hne, ?_, ?_, ratiosOf_eq results hv hne,
    ?_, ?_, ?_, ?_⟩
  · rw [hz]
    exact tri_div_sum rfl hzr
  · rw [hz]
    exact two_div_sum rfl hzb
  · rw [hr]
    exact pair_div_sum (red_parity_partition results)
      (red_ratio_total_eq results) hL
  · rw [hr]
    exact pair_div_sum (red_size_partition results)
      (red_ratio_total_eq results) hL
  · rw [hr]
    exact pair_div_sum (blue_parity_partition results)
      (blue_ratio_total_eq results) hN
  · rw [hr]
    exact pair_div_sum (blue_size_partition results)
      (blue_ratio_total_eq results) hN

/-- Witness for C8 at the spec's two-draw example. -/
theorem C8_fractions_sum_to_one_witness :
    (∀ r ∈ specExample, ValidResult r) ∧ specExample ≠ [] ∧
    (zonesOf specExample).z1 + (zonesOf specExample).z2 +
      (zonesOf specExample).z3 = 1 :=
  ⟨by decide, by decide,
    (C8_fractions_sum_to_one specExample (by decide) (by decide)).2.1⟩

/-- C2.  On a valid corpus, `predict_next_result` fails with the typed
insufficient-data error below 30 records (including the empty corpus,
`0 < 30`), and on 30 or more records it succeeds and suggests exactly 6
distinct red balls sorted ascending, each in 1..33, plus one blue ball
in 1..16. -/
theorem C2_predict_contract (results : List Result)
    (hv : ∀ r ∈ results, ValidResult r) :
    (results.length < 30 →
      predict_next_result results = .error .insufficientData) ∧
    (30 ≤ results.length →
      predict_next_result results = .ok (predictionOf results) ∧
      (predictionOf results).suggested_reds.length = 6 ∧
      (predictionOf results).suggested_reds.Nodup ∧
      List.Sorted (· ≤ ·) (predictionOf results).suggested_reds ∧
      (∀ b ∈ (predictionOf results).suggested_reds, 1 ≤ b ∧ b ≤ 33) ∧
      1 ≤ (predictionOf results).suggested_blue ∧
      (predictionOf results).suggested_blue ≤ 16) := by
  refine ⟨predict_insufficient results, ?_⟩
  intro h30
  have hne : results ≠ [] := by
    intro h
    rw [h] at h30
    simp at h30
  have hrt := ratiosOf_eq results hv hne
  have hz := zonesOf_eq results hv hne
  have hok := predict_eq_ok results (ratiosOf results) (zonesOf results)
    h30 hrt hz
  have hpred := predictionOf_eq results (ratiosOf results) (zonesOf results)
    h30 hrt hz
  rw [hpred]
  obtain ⟨hlen, hnodup, hsorted, hmem⟩ :=
    suggested_reds_spec results (ratiosOf results) (zonesOf results)
  have hblue := suggested_blue_spec results (ratiosOf results)
    (zonesOf results)
  have hblue_range := mem_BLUE_BALL_RANGE.1 (blue_candidate_subset hblue)
  exact ⟨hok, hlen, hnodup, hsorted,
    fun b hb => mem_RED_BALL_RANGE.1 (hmem b hb),
    hblue_range.1, hblue_range.2⟩

/-- Witness for C2 at the 30-record sample corpus. -/
theorem C2_predict_contract_witness :
    (∀ r ∈ sampleCorpus, ValidResult r) ∧ 30 ≤ sampleCorpus.length ∧
    (predictionOf sampleCorpus).suggested_reds.length = 6 :=
  ⟨by decide, by decide,
    ((C2_predict_contract sampleCorpus (by decide)).2 (by decide)).2.1⟩

/-- C9.  On a valid corpus of at least 30 records the red candidate list
contains every red ball of the majority parity (a pool of at least 16
balls) and the blue candidate list every blue ball of the majority
parity (at least 8 balls), so picking the 6 best-scoring red balls and
the single best-scoring blue ball is always well defined: the suggestion
has exactly 6 red balls and its blue ball is a real candidate. -/
theorem C9_parity_pool_safety (results : List Result)
    (hv : ∀ r ∈ results, ValidResult r) (h30 : 30 ≤ results.length) :
    predict_next_result results = .ok (predictionOf results) ∧
    (∀ b ∈ red_pool_parity (ratiosOf results),
      b ∈ (predictionOf results).red_candidates) ∧
    16 ≤ (red_pool_parity (ratiosOf results)).length ∧
    16 ≤ (predictionOf results).red_candidates.length ∧
    (∀ b ∈ blue_pool_parity (ratiosOf results),
      b ∈ (predictionOf results).blue_candidates) ∧
    8 ≤ (blue_pool_parity (ratiosOf results)).length ∧
    8 ≤ (predictionOf results).blue_candidates.length ∧
    (predictionOf results).suggested_reds.length = 6 ∧
    (predictionOf results).suggested_blue ∈
      (predictionOf results).blue_candidates := by
  have hne : results ≠ [] := by
    intro h
    rw [h] at h30
    simp at h30
  have hrt := ratiosOf_eq results hv hne
  have hz := zonesOf_eq results hv hne
  have hok := predict_eq_ok results (ratiosOf results) (zonesOf results)
    h30 hrt hz
  have hpred := predictionOf_eq results (ratiosOf results) (zonesOf results)
    h30 hrt hz
  rw [hpred, mkPrediction_red_candidates, mkPrediction_blue_candidates]
  exact ⟨hok,
    fun b hb => mem_red_candidate_list.2 (Or.inr (Or.inr (Or.inr hb))),
    red_pool_parity_length (ratiosOf results),
    red_candidate_list_length results (ratiosOf results) (zonesOf results),
    fun b hb => mem_blue_candidate_list.2 (Or.inr (Or.inr hb)),
    blue_pool_parity_length (ratiosOf results),
    blue_candidate_list_length results (ratiosOf results),
    (suggested_reds_spec results (ratiosOf results) (zonesOf results)).1,
    suggested_blue_spec results (ratiosOf results) (zonesOf results)⟩

/-- Witness for C9 at the 30-record sample corpus. -/
theorem C9_parity_pool_safety_witness :
    (∀ r ∈ sampleCorpus, ValidResult r) ∧ 30 ≤ sampleCorpus.length ∧
    16 ≤ (predictionOf sampleCorpus).red_candidates.length ∧
    8 ≤ (predictionOf sampleCorpus).blue_candidates.length :=
  ⟨by decide, by decide,
    (C9_parity_pool_safety sampleCorpus (by decide) (by decide)).2.2.2.1,
    (C9_parity_pool_safety sampleCorpus (by decide)
      (by decide)).2.2.2.2.2.2.1⟩

set_option maxRecDepth 8000 in
/-- C4 counterexample.  At the 30-record sample corpus, ball 13 ranks
12th by red frequency: the claimed union built from the top **15**
red balls by frequency contains it, but the candidate list the code
actually returns does not, because `predict_next_result` slices
`[:15]` from a frequency table already truncated to its default
`top_n = 10` entries. -/
theorem C4_top15_pool_counterexample :
    13 ∈ claim_red_candidate_list sampleCorpus (ratiosOf sampleCorpus)
      (zonesOf sampleCorpus) ∧
    (predict_next_result sampleCorpus).toOption.map Prediction.red_candidates
      = some (red_candidate_list sampleCorpus (ratiosOf sampleCorpus)
        (zonesOf sampleCorpus)) ∧
    13 ∉ red_candidate_list sampleCorpus (ratiosOf sampleCorpus)
      (zonesOf sampleCorpus) := by
  with_unfolding_all decide

/-- C4 as amended.  On a valid corpus of at least 30 records the
predictor succeeds and builds its red candidate list as the deduplicated
sorted union of the top **10** (not 15) red balls by frequency, the top
10 red balls by omission descending, the most-populous-zone pool and the
majority-parity pool; the blue candidate list is exactly the claimed
union of the top 5 by frequency, top 3 by omission descending and the
majority-parity pool. -/
theorem C4_candidate_pools_amended (results : List Result)
    (hv : ∀ r ∈ results, ValidResult r) (h30 : 30 ≤ results.length) :
    analyze_ratios results = some (ratiosOf results) ∧
    analyze_distribution results = some (zonesOf results) ∧
    predict_next_result results = .ok (predictionOf results) ∧
    (predictionOf results).red_candidates =
      amended_red_candidate_list results (ratiosOf results)
        (zonesOf results) ∧
    (predictionOf results).blue_candidates =
      claim_blue_candidate_list results (ratiosOf results) := by
  have hne : results ≠ [] := by
    intro h
    rw [h] at h30
    simp at h30
  have hrt := ratiosOf_eq results hv hne
  have hz := zonesOf_eq results hv hne
  have hok := predict_eq_ok results (ratiosOf results) (zonesOf results)
    h30 hrt hz
  have hpred := predictionOf_eq results (ratiosOf results) (zonesOf results)
    h30 hrt hz
  rw [hpred, mkPrediction_red_candidates, mkPrediction_blue_candidates]
  exact ⟨hrt, hz, hok,
    red_candidate_list_amended results (ratiosOf results) (zonesOf results),
    blue_candidate_list_claim results (ratiosOf results)⟩

/-- Witness for the amended C4 at the 30-record sample corpus. -/
theorem C4_candidate_pools_amended_witness :
    (∀ r ∈ sampleCorpus, ValidResult r) ∧ 30 ≤ sampleCorpus.length ∧
    (predictionOf sampleCorpus).red_candidates =
      amended_red_candidate_list sampleCorpus (ratiosOf sampleCorpus)
        (zonesOf sampleCorpus) :=
  ⟨by decide, by decide,
    (C4_candidate_pools_amended sampleCorpus (by decide)
      (by decide)).2.2.2.1⟩

end SSQ

